import Mathlib

/-!
Shallow embedding of the ingestion pipeline of the stock-index-app
repository, covering:

* `src/retry.py` — `sleep_with_backoff` and the `retry_on_exception` wrapper;
* `src/sources/yahoo.py` — `YahooFinanceSource.fetch`;
* `src/sources/alphavantage.py` — `AlphaVantageSource.fetch`;
* `src/ingest/orchestrator.py` — `upsert_daily_data`, `upsert_stock_metadata`,
  `fetch_stock_data` and the `ingest` summary loop.

Conventions of the embedding: Python floats become rationals, nullable
values become `Option`, raised exceptions become the `Except.error`
branch of an `Except` result, database timestamps become an explicit
`now : Nat` argument, and the per-key database row becomes an explicit
`Option` record threaded through the upsert.
-/

/-!  ## Python string comparison

Python compares strings lexicographically by code point.  The dates in
this repository are `YYYY-MM-DD` strings compared with `<=` in
`alphavantage.py`.  Lean's built-in `String` order does not reduce in
the kernel, so we embed the comparison directly on the code-point lists.
-/

/-- Lexicographic (code-point) comparison of character lists, the
meaning of Python's `<=` on strings. -/
def charLeList : List Char → List Char → Bool
  | [], _ => true
  | _ :: _, [] => false
  | a :: as, b :: bs =>
    if a.toNat < b.toNat then true
    else if b.toNat < a.toNat then false
    else charLeList as bs

/-- Python's `<=` on strings (lexicographic by code point). -/
def pyLe (a b : String) : Bool := charLeList a.data b.data

theorem charLeList_refl (x : List Char) : charLeList x x = true := by
  induction x with
  | nil => rfl
  | cons a as ih => simp [charLeList, ih]

theorem charLeList_total (x : List Char) :
    ∀ y, charLeList x y = true ∨ charLeList y x = true := by
  induction x with
  | nil => intro y; left; rfl
  | cons a as ih =>
    intro y
    cases y with
    | nil => right; rfl
    | cons b bs =>
      rcases Nat.lt_trichotomy a.toNat b.toNat with h | h | h
      · left; simp [charLeList, h]
      · rcases ih bs with h' | h' <;>
          [left; right] <;> simp [charLeList, h, h']
      · right; simp [charLeList, h]

theorem charLeList_trans (x : List Char) :
    ∀ y z, charLeList x y = true → charLeList y z = true →
      charLeList x z = true := by
  induction x with
  | nil => intro y z _ _; rfl
  | cons a as ih =>
    intro y z hxy hyz
    cases y with
    | nil => simp [charLeList] at hxy
    | cons b bs =>
      cases z with
      | nil => simp [charLeList] at hyz
      | cons c cs =>
        simp only [charLeList] at hxy hyz ⊢
        split_ifs at hxy hyz ⊢ with h1 h2 h3 h4 h5 h6 <;>
          first
            | rfl
            | omega
            | (exact ih bs cs hxy hyz)

theorem pyLe_refl (a : String) : pyLe a a = true := charLeList_refl a.data

theorem pyLe_total (a b : String) : pyLe a b = true ∨ pyLe b a = true :=
  charLeList_total a.data b.data

theorem pyLe_trans {a b c : String} (h1 : pyLe a b = true)
    (h2 : pyLe b c = true) : pyLe a c = true :=
  charLeList_trans a.data b.data c.data h1 h2

/-!  ## Descending sort

`alphavantage.py` line 147 computes `sorted(time_series.keys(), reverse=True)`.
We model it with an insertion sort under the descending order induced by
`pyLe`; the Python builtin is likewise a comparison sort producing the
keys in descending code-point order.
-/

/-- Insert a string into a descending-sorted list, keeping it sorted. -/
def insertDesc (x : String) : List String → List String
  | [] => [x]
  | y :: ys => if pyLe y x then x :: y :: ys else y :: insertDesc x ys

/-- `sorted(keys, reverse=True)` of Python: sort into descending order. -/
def sortDesc : List String → List String
  | [] => []
  | x :: xs => insertDesc x (sortDesc xs)

/-- The descending-sortedness predicate: every later element is `pyLe`
the earlier ones. -/
def SortedDesc (l : List String) : Prop :=
  l.Pairwise (fun a b => pyLe b a = true)

theorem mem_insertDesc {x y : String} {l : List String} :
    y ∈ insertDesc x l ↔ y = x ∨ y ∈ l := by
  induction l with
  | nil => simp [insertDesc]
  | cons z zs ih =>
    simp only [insertDesc]
    split_ifs with h
    · simp
    · simp only [List.mem_cons, ih]
      tauto

theorem mem_sortDesc {y : String} {l : List String} :
    y ∈ sortDesc l ↔ y ∈ l := by
  induction l with
  | nil => simp [sortDesc]
  | cons z zs ih => simp [sortDesc, mem_insertDesc, ih]

theorem sortedDesc_insertDesc {x : String} {l : List String}
    (h : SortedDesc l) : SortedDesc (insertDesc x l) := by
  induction l with
  | nil => simp [insertDesc, SortedDesc]
  | cons y ys ih =>
    rcases List.pairwise_cons.mp h with ⟨hy, hys⟩
    simp only [insertDesc]
    split_ifs with hle
    · refine List.pairwise_cons.mpr ⟨?_, h⟩
      intro b hb
      rcases List.mem_cons.mp hb with rfl | hb
      · exact hle
      · exact pyLe_trans (hy b hb) hle
    · refine List.pairwise_cons.mpr ⟨?_, ih hys⟩
      intro b hb
      rcases mem_insertDesc.mp hb with hbx | hb
      · rcases pyLe_total y b with h' | h'
        · rw [hbx] at h'
          exact absurd h' hle
        · exact h'
      · exact hy b hb

theorem sortedDesc_sortDesc (l : List String) : SortedDesc (sortDesc l) := by
  induction l with
  | nil => exact List.Pairwise.nil
  | cons x xs ih => exact sortedDesc_insertDesc ih

/-- In a descending-sorted list, the first element `find?` locates with
`pyLe · bound` is the greatest element below the bound. -/
theorem find?_sortedDesc_greatest {l : List String} {bound d₀ : String}
    (hs : SortedDesc l)
    (hf : l.find? (fun d => pyLe d bound) = some d₀) :
    ∀ x ∈ l, pyLe x bound = true → pyLe x d₀ = true := by
  induction l with
  | nil => simp at hf
  | cons y ys ih =>
    rcases List.pairwise_cons.mp hs with ⟨hy, hys⟩
    intro x hx hxb
    by_cases hyb : pyLe y bound = true
    · have hd : d₀ = y := by
        rw [@List.find?_cons_of_pos String (fun d => pyLe d bound) y ys hyb] at hf
        exact (Option.some_inj.mp hf).symm
      subst hd
      rcases List.mem_cons.mp hx with rfl | hx
      · exact pyLe_refl x
      · exact hy x hx
    · have hf' : ys.find? (fun d => pyLe d bound) = some d₀ := by
        rwa [@List.find?_cons_of_neg String (fun d => pyLe d bound) y ys hyb] at hf
      rcases List.mem_cons.mp hx with rfl | hx
      · exact absurd hxb hyb
      · exact ih hys hf' x hx hxb

/-!  ## Data model -/

/-- The dictionary returned by every adapter `fetch` (`yahoo.py`,
`alphavantage.py`): symbol, date (possibly adjusted), nullable close
price and market cap, source tag, nullable error message. -/
structure Observation where
  symbol : String
  date : String
  close_price : Option ℚ
  market_cap : Option ℚ
  source : String
  error : Option String
  deriving DecidableEq, Repr

/-- A row of the `daily_stock_data` table keyed by `(symbol, date)`
(`orchestrator.py`, `create_tables`). -/
structure DailyRecord where
  close_price : Option ℚ
  market_cap : Option ℚ
  source : String
  error : Option String
  created_at : Nat
  updated_at : Nat
  deriving DecidableEq, Repr

/-- A row of the `stock_metadata` table keyed by symbol. -/
structure MetadataRecord where
  name : Option String
  exchange : Option String
  latest_market_cap : Option ℚ
  last_updated : Nat
  deriving DecidableEq, Repr

/-!  ## `src/retry.py`

A wrapped operation is modelled as `op : Nat → Except E A` giving the
outcome of each 1-based invocation attempt: `Except.error` is a raised
retryable exception, `Except.ok` a normal return.  The wrapper's run is
summarised as `(sleeps, invocations, outcome)`.  Jitter adds random
noise to each sleep; the claims fix jitter disabled, which is what the
embedding computes.
-/

/-- `sleep_with_backoff` (retry.py line 47, jitter disabled): the slept
duration `base_delay * backoff_factor ** (attempt - 1)`. -/
def sleep_with_backoff (attempt : Nat) (base_delay backoff_factor : ℚ) : ℚ :=
  base_delay * backoff_factor ^ (attempt - 1)

/-- The retry loop of `retry_on_exception` (retry.py lines 103-132),
started at a given 1-based attempt with `fuel` further attempts allowed
after the current one.  Returns the sleeps performed, the number of
invocations of the operation, and the final outcome (`Except.error` =
the re-raised last exception). -/
def retryAux (op : Nat → Except E A) (base bf : ℚ) :
    Nat → Nat → List ℚ × Nat × Except E A
  | attempt, fuel =>
    match op attempt with
    | Except.ok a => ([], 1, Except.ok a)
    | Except.error e =>
      match fuel with
      | 0 => ([], 1, Except.error e)
      | fuel' + 1 =>
        let rest := retryAux op base bf (attempt + 1) fuel'
        (sleep_with_backoff attempt base bf :: rest.1, rest.2.1 + 1, rest.2.2)

/-- `retry_on_exception(max_attempts, initial_delay, backoff_factor)`
applied to an operation: run the loop from attempt 1 with
`max_attempts - 1` retries remaining. -/
def retry_on_exception (op : Nat → Except E A) (max_attempts : Nat)
    (initial_delay backoff_factor : ℚ) : List ℚ × Nat × Except E A :=
  retryAux op initial_delay backoff_factor 1 (max_attempts - 1)

theorem retryAux_all_fail {E A : Type} (op : Nat → Except E A) (err : Nat → E)
    (hop : ∀ k, op k = Except.error (err k)) (base bf : ℚ) :
    ∀ fuel attempt,
      retryAux op base bf attempt fuel =
        ((List.range' attempt fuel).map (fun k => sleep_with_backoff k base bf),
          fuel + 1, Except.error (err (attempt + fuel))) := by
  intro fuel
  induction fuel with
  | zero => intro attempt; simp [retryAux, hop attempt]
  | succ fuel' ih =>
    intro attempt
    have e1 : attempt + (fuel' + 1) = attempt + 1 + fuel' := by omega
    rw [List.range'_succ, e1]
    simp [retryAux, hop attempt, ih (attempt + 1)]

theorem retryAux_succeeds {E A : Type} (op : Nat → Except E A) (err : Nat → E)
    (base bf : ℚ) :
    ∀ j attempt fuel a,
      (∀ k, attempt ≤ k → k < attempt + j → op k = Except.error (err k)) →
      op (attempt + j) = Except.ok a → j ≤ fuel →
      retryAux op base bf attempt fuel =
        ((List.range' attempt j).map (fun k => sleep_with_backoff k base bf),
          j + 1, Except.ok a) := by
  intro j
  induction j with
  | zero =>
    intro attempt fuel a _ hok _
    simp only [Nat.add_zero] at hok
    simp [retryAux, hok]
  | succ j' ih =>
    intro attempt fuel a hfail hok hj
    have hattempt : op attempt = Except.error (err attempt) :=
      hfail attempt (Nat.le_refl _) (by omega)
    obtain ⟨fuel', rfl⟩ : ∃ f, fuel = f + 1 := ⟨fuel - 1, by omega⟩
    have ihres := ih (attempt + 1) fuel' a
      (fun k hk1 hk2 => hfail k (by omega) (by omega))
      (by rw [show attempt + 1 + j' = attempt + (j' + 1) by omega]; exact hok)
      (by omega)
    rw [List.range'_succ]
    simp [retryAux, hattempt, ihres]

deriving instance DecidableEq for Except

/-!  ## `src/sources/yahoo.py`

`YahooFinanceSource.fetch` interacts with the provider through
`ticker.history` (the 'Close' column rows for the requested date) and
`ticker.info` (the 'marketCap' entry).  Each interaction either raises
(`Except.error` with the exception text) or returns data.  The body of
the `try` block is `yahooFetchBody`; `yahooFetch` is the whole method
with its outer `except Exception` clause, so an `Except.error` result
of `yahooFetch` would be an exception escaping to the caller.
-/

structure YahooBehavior where
  history : Except String (List ℚ)
  info : Except String (Option ℚ)

/-- Lines 75-119 of yahoo.py: the `try` block body. -/
def yahooFetchBody (symbol date : String) (b : YahooBehavior) :
    Except String Observation :=
  match b.history with
  | Except.error e => Except.error e
  | Except.ok hist =>
    match hist with
    | [] =>
      Except.ok
        { symbol := symbol, date := date, close_price := none,
          market_cap := none, source := "yahoo",
          error := some ("No price data found for " ++ symbol ++ " on " ++
            date ++ ", likely weekend or holiday") }
    | c :: _ =>
      let market_cap : Option ℚ :=
        match b.info with
        | Except.error _ => none
        | Except.ok mc => mc
      Except.ok
        { symbol := symbol, date := date, close_price := some c,
          market_cap :=
            match market_cap with
            | none => none
            | some v => if v = 0 then none else some v,
          source := "yahoo", error := none }

/-- `YahooFinanceSource.fetch`: the `try` body plus the
`except Exception` clause of lines 121-130 returning a failed
observation carrying the exception text. -/
def yahooFetch (symbol date : String) (b : YahooBehavior) :
    Except String Observation :=
  match yahooFetchBody symbol date b with
  | Except.ok o => Except.ok o
  | Except.error e =>
    Except.ok { symbol := symbol, date := date, close_price := none,
                market_cap := none, source := "yahoo", error := some e }

/-!  ## `src/sources/alphavantage.py`

`AlphaVantageSource.fetch` makes one HTTP request whose parsed JSON
payload carries the optional keys `"Error Message"`, `"Note"` and
`"Time Series (Daily)"`; the time series maps date strings to closes.
A raised exception is either a `requests.RequestException` or any other
exception, caught by distinct `except` clauses.
-/

inductive PyExc where
  | requestException (msg : String)
  | otherException (msg : String)
  deriving DecidableEq, Repr

structure AVResponse where
  errorMessage : Option String
  note : Option String
  timeSeries : Option (List (String × ℚ))
  deriving DecidableEq, Repr

structure AVBehavior where
  request : Except PyExc AVResponse

/-- Lines 140-168 of alphavantage.py: select the date served from the
time series.  `some (actual_date, close, warning)` is the served entry;
`none` means no date at or before the requested one is available. -/
def avSelectDate (time_series : List (String × ℚ)) (date : String) :
    Option (String × ℚ × Option String) :=
  match time_series.lookup date with
  | some close => some (date, close, none)
  | none =>
    let available_dates := sortDesc (time_series.map Prod.fst)
    match available_dates.find? (fun d => pyLe d date) with
    | none => none
    | some actual_date =>
      match time_series.lookup actual_date with
      | some close =>
        some (actual_date, close,
          some ("Exact date " ++ date ++ " not available, using " ++ actual_date))
      | none => none

/-- Lines 83-179 of alphavantage.py: the `try` block body. -/
def alphaFetchBody (symbol date : String) (b : AVBehavior) :
    Except PyExc Observation :=
  match b.request with
  | Except.error exc => Except.error exc
  | Except.ok data =>
    match data.errorMessage with
    | some error_msg =>
      Except.ok
        { symbol := symbol, date := date, close_price := none,
          market_cap := none, source := "alphavantage",
          error := some error_msg }
    | none =>
      match data.note with
      | some note_msg =>
        Except.ok
          { symbol := symbol, date := date, close_price := none,
            market_cap := none, source := "alphavantage",
            error := some ("API rate limit: " ++ note_msg) }
      | none =>
        match data.timeSeries with
        | none =>
          Except.ok
            { symbol := symbol, date := date, close_price := none,
              market_cap := none, source := "alphavantage",
              error := some "No time series data available" }
        | some time_series =>
          if time_series = [] then
            Except.ok
              { symbol := symbol, date := date, close_price := none,
                market_cap := none, source := "alphavantage",
                error := some "No time series data available" }
          else
            match avSelectDate time_series date with
            | none =>
              Except.ok
                { symbol := symbol, date := date, close_price := none,
                  market_cap := none, source := "alphavantage",
                  error := some ("No data available for " ++ symbol ++
                    " on or before " ++ date) }
            | some (actual_date, close_price, warning) =>
              Except.ok
                { symbol := symbol, date := actual_date,
                  close_price := some close_price, market_cap := none,
                  source := "alphavantage", error := warning }

/-- `AlphaVantageSource.fetch`: the `try` body plus the two `except`
clauses of lines 181-200, each returning a failed observation. -/
def alphaFetch (symbol date : String) (b : AVBehavior) :
    Except PyExc Observation :=
  match alphaFetchBody symbol date b with
  | Except.ok o => Except.ok o
  | Except.error (PyExc.requestException e) =>
    Except.ok { symbol := symbol, date := date, close_price := none,
                market_cap := none, source := "alphavantage",
                error := some ("Network error: " ++ e) }
  | Except.error (PyExc.otherException e) =>
    Except.ok { symbol := symbol, date := date, close_price := none,
                market_cap := none, source := "alphavantage",
                error := some e }

/-- Behavior of a healthy Alpha Vantage call that returned the given
time series. -/
def avOk (ts : List (String × ℚ)) : AVBehavior :=
  ⟨Except.ok { errorMessage := none, note := none, timeSeries := some ts }⟩

/-!  ## `src/ingest/orchestrator.py`

The database row for a given key is threaded explicitly: `existing` is
the row found by the `SELECT`, `now` stands for `CURRENT_TIMESTAMP`,
and the returned record is the row stored after the call.
-/

/-- `DataOrchestrator.upsert_daily_data` (lines 129-173) for one
`(symbol, date)` key: the null-preserving merge against the existing
row, or insert when the key is absent. -/
def upsert_daily_data (existing : Option DailyRecord)
    (close_price market_cap : Option ℚ) (source : String)
    (error : Option String) (now : Nat) : DailyRecord :=
  match existing with
  | none =>
    { close_price := close_price, market_cap := market_cap,
      source := source, error := error, created_at := now, updated_at := now }
  | some r =>
    let new_close_price :=
      if r.close_price.isNone && close_price.isSome then close_price
      else r.close_price
    let new_market_cap :=
      if r.market_cap.isNone && market_cap.isSome then market_cap
      else r.market_cap
    let should_update :=
      (r.close_price.isNone && close_price.isSome) ||
        (r.market_cap.isNone && market_cap.isSome)
    if should_update then
      { close_price := new_close_price, market_cap := new_market_cap,
        source := source, error := error, created_at := r.created_at,
        updated_at := now }
    else r

/-- `DataOrchestrator.upsert_stock_metadata` (lines 82-127) for one
symbol: each non-null argument overwrites its column; the
`last_updated = CURRENT_TIMESTAMP` assignment is appended
unconditionally, so an existing row's `last_updated` is always set. -/
def upsert_stock_metadata (existing : Option MetadataRecord)
    (name exchange : Option String) (market_cap : Option ℚ)
    (now : Nat) : MetadataRecord :=
  match existing with
  | some r =>
    { name := match name with | some v => some v | none => r.name,
      exchange := match exchange with | some v => some v | none => r.exchange,
      latest_market_cap :=
        match market_cap with | some v => some v | none => r.latest_market_cap,
      last_updated := now }
  | none =>
    { name := name, exchange := exchange, latest_market_cap := market_cap,
      last_updated := now }

/-- Python truthiness of the nullable `error` string used at line 194
(`yahoo_result if yahoo_result.get("error") else alpha_result`): `None`
and the empty string are falsy. -/
def errTruthy : Option String → Bool
  | none => false
  | some s => !(s == "")

/-- `DataOrchestrator.fetch_stock_data` (lines 175-194), given the two
observations the adapters would return.  The boolean records whether
the Alpha Vantage (secondary) adapter was invoked. -/
def fetch_stock_data (yahoo_result alpha_result : Observation) :
    Observation × Bool :=
  if yahoo_result.close_price.isSome then (yahoo_result, false)
  else if alpha_result.close_price.isSome then (alpha_result, true)
  else (if errTruthy yahoo_result.error then yahoo_result else alpha_result, true)

/-- Outcome of processing one `(symbol, date)` pair inside the `try` of
`ingest`'s loop body: either the fetched observation reached the
counting step, or some exception was raised by the fetch or a store
call and caught by the `except` clause. -/
inductive PairOutcome where
  | fetched (obs : Observation)
  | exn (msg : String)

/-- Line 258 of orchestrator.py: a pair is counted as a success exactly
when the newly fetched result's close price is non-null; an exception
is counted as a failure. -/
def pairSuccess : PairOutcome → Bool
  | PairOutcome.fetched obs => obs.close_price.isSome
  | PairOutcome.exn _ => false

/-- The summary dictionary returned by `ingest` (lines 284-291). -/
structure IngestSummary where
  total_symbols : Nat
  total_dates : Nat
  successes : Nat
  failures : Nat
  failed_pairs : List String
  success_rate : ℚ

/-- One iteration of `ingest`'s inner loop acting on the accumulator
`(successes, failures, failed_pairs)`. -/
def ingestStep (oracle : String → String → PairOutcome)
    (acc : Nat × Nat × List String) (p : String × String) :
    Nat × Nat × List String :=
  match oracle p.1 p.2 with
  | PairOutcome.fetched obs =>
    if obs.close_price.isSome then (acc.1 + 1, acc.2.1, acc.2.2)
    else (acc.1, acc.2.1 + 1, acc.2.2 ++ [p.1 ++ "-" ++ p.2])
  | PairOutcome.exn _ => (acc.1, acc.2.1 + 1, acc.2.2 ++ [p.1 ++ "-" ++ p.2])

/-- The date strings enumerated by the `while current_dt <= end_dt`
loop: days are numbered, `dateName` renders a day number as the
`YYYY-MM-DD` string `strftime` would produce, and the loop visits
`startDay, startDay + 1, …, endDay` (no day when `endDay < startDay`). -/
def ingestDates (startDay endDay : Nat) (dateName : Nat → String) :
    List String :=
  (List.range (endDay + 1 - startDay)).map (fun i => dateName (startDay + i))

/-- The `for symbol in symbols` / `while` date double loop: every
`(symbol, date)` pair in order. -/
def allPairs (symbols dates : List String) : List (String × String) :=
  match symbols with
  | [] => []
  | s :: rest => dates.map (fun d => (s, d)) ++ allPairs rest dates

/-- `DataOrchestrator.ingest` (lines 196-304) reduced to its counting
behaviour: the per-pair fetch/store outcome is supplied by `oracle`,
and the returned summary follows lines 284-291, with `success_rate =
successes / total_dates * 100` and `0` when `total_dates = 0`. -/
def ingest (symbols : List String) (startDay endDay : Nat)
    (dateName : Nat → String) (oracle : String → String → PairOutcome) :
    IngestSummary :=
  let dates := ingestDates startDay endDay dateName
  let pairs := allPairs symbols dates
  let res := pairs.foldl (ingestStep oracle) (0, 0, [])
  { total_symbols := symbols.length,
    total_dates := pairs.length,
    successes := res.1,
    failures := res.2.1,
    failed_pairs := res.2.2,
    success_rate :=
      if pairs.length > 0 then (res.1 : ℚ) / (pairs.length : ℚ) * 100 else 0 }

/-!  ## Helper lemmas -/

theorem allPairs_length (symbols dates : List String) :
    (allPairs symbols dates).length = symbols.length * dates.length := by
  induction symbols with
  | nil => simp [allPairs]
  | cons s rest ih =>
    simp [allPairs, ih, Nat.succ_mul, Nat.add_comm]

theorem mem_allPairs {symbols dates : List String} {p : String × String} :
    p ∈ allPairs symbols dates ↔ p.1 ∈ symbols ∧ p.2 ∈ dates := by
  induction symbols with
  | nil => simp [allPairs]
  | cons s rest ih =>
    simp only [allPairs, List.mem_append, List.mem_map, ih, List.mem_cons]
    constructor
    · rintro (⟨d, hd, rfl⟩ | ⟨h1, h2⟩)
      · exact ⟨Or.inl rfl, hd⟩
      · exact ⟨Or.inr h1, h2⟩
    · rintro ⟨h1 | h1, h2⟩
      · left
        refine ⟨p.2, h2, ?_⟩
        rw [← h1]
      · right
        exact ⟨h1, h2⟩

theorem ingestDates_length (startDay endDay : Nat) (dateName : Nat → String) :
    (ingestDates startDay endDay dateName).length = endDay + 1 - startDay := by
  simp [ingestDates]

theorem ingestStep_inv (oracle : String → String → PairOutcome)
    (acc : Nat × Nat × List String) (p : String × String) :
    (ingestStep oracle acc p).1 + (ingestStep oracle acc p).2.1
        = acc.1 + acc.2.1 + 1
    ∧ (ingestStep oracle acc p).2.2.length + (ingestStep oracle acc p).1
        = acc.2.2.length + acc.1 + 1
    ∧ ∀ x ∈ (ingestStep oracle acc p).2.2,
        x ∈ acc.2.2 ∨
          (x = p.1 ++ "-" ++ p.2 ∧ pairSuccess (oracle p.1 p.2) = false) := by
  unfold ingestStep pairSuccess
  cases h : oracle p.1 p.2 with
  | fetched obs =>
    dsimp only
    by_cases hc : obs.close_price.isSome = true
    · rw [if_pos hc]
      refine ⟨by first | omega | (dsimp only; omega), by first | omega | (dsimp only; omega), ?_⟩
      intro x hx
      exact Or.inl hx
    · rw [if_neg hc]
      refine ⟨by first | omega | (dsimp only; omega), by simp; omega, ?_⟩
      intro x hx
      rcases List.mem_append.mp hx with hx' | hx'
      · exact Or.inl hx'
      · refine Or.inr ⟨List.mem_singleton.mp hx', ?_⟩
        simpa using hc
  | exn m =>
    dsimp only
    refine ⟨by omega, by simp; omega, ?_⟩
    intro x hx
    rcases List.mem_append.mp hx with hx' | hx'
    · exact Or.inl hx'
    · exact Or.inr ⟨List.mem_singleton.mp hx', rfl⟩

theorem ingestFold_inv (oracle : String → String → PairOutcome)
    (l : List (String × String)) :
    ∀ acc : Nat × Nat × List String,
      (l.foldl (ingestStep oracle) acc).1
          + (l.foldl (ingestStep oracle) acc).2.1
        = acc.1 + acc.2.1 + l.length
      ∧ (l.foldl (ingestStep oracle) acc).2.2.length
            + (l.foldl (ingestStep oracle) acc).1
        = acc.2.2.length + acc.1 + l.length
      ∧ ∀ x ∈ (l.foldl (ingestStep oracle) acc).2.2,
          x ∈ acc.2.2 ∨
            ∃ p, p ∈ l ∧ x = p.1 ++ "-" ++ p.2 ∧
              pairSuccess (oracle p.1 p.2) = false := by
  induction l with
  | nil => intro acc; simp
  | cons p l' ih =>
    intro acc
    rcases ingestStep_inv oracle acc p with ⟨s1, s2, s3⟩
    rcases ih (ingestStep oracle acc p) with ⟨i1, i2, i3⟩
    refine ⟨?_, ?_, ?_⟩
    · simp only [List.foldl_cons, List.length_cons]
      omega
    · simp only [List.foldl_cons, List.length_cons]
      omega
    · intro x hx
      simp only [List.foldl_cons] at hx
      rcases i3 x hx with hmem | ⟨q, hq, hx1, hx2⟩
      · rcases s3 x hmem with hmem' | ⟨hx1, hx2⟩
        · exact Or.inl hmem'
        · exact Or.inr ⟨p, List.mem_cons_self p l', hx1, hx2⟩
      · exact Or.inr ⟨q, List.mem_cons_of_mem p hq, hx1, hx2⟩

theorem lookup_of_mem_keys {ts : List (String × ℚ)} {d : String}
    (h : d ∈ ts.map Prod.fst) : ∃ c, ts.lookup d = some c := by
  induction ts with
  | nil => simp at h
  | cons kv rest ih =>
    by_cases hd : d = kv.1
    · exact ⟨kv.2, by simp [List.lookup, hd]⟩
    · have hmem : d ∈ rest.map Prod.fst := by
        rcases List.mem_map.mp h with ⟨q, hq, hqd⟩
        rcases List.mem_cons.mp hq with rfl | hq'
        · exact absurd hqd.symm hd
        · exact List.mem_map.mpr ⟨q, hq', hqd⟩
      rcases ih hmem with ⟨c, hc⟩
      refine ⟨c, ?_⟩
      have hbeq : (d == kv.1) = false := beq_eq_false_iff_ne.mpr hd
      simp [List.lookup, hbeq, hc]

/-!  ## Claims -/

/-- C1: for an existing stored record, `upsert_daily_data` merges
`close_price` and `market_cap` independently: a field takes the
incoming value only when the stored value is null and the incoming one
is non-null, and is unchanged in every other case; in particular
existing `(close_price = 150, market_cap = null)` merged with incoming
`(close_price = 999, market_cap = 2000000000)` yields stored
`(close_price = 150, market_cap = 2000000000)`. -/
theorem upsert_daily_null_preserving (r : DailyRecord)
    (cp mc : Option ℚ) (source : String) (error : Option String) (now : Nat) :
    (r.close_price = none → cp ≠ none →
      (upsert_daily_data (some r) cp mc source error now).close_price = cp)
    ∧ (r.close_price ≠ none ∨ cp = none →
      (upsert_daily_data (some r) cp mc source error now).close_price
        = r.close_price)
    ∧ (r.market_cap = none → mc ≠ none →
      (upsert_daily_data (some r) cp mc source error now).market_cap = mc)
    ∧ (r.market_cap ≠ none ∨ mc = none →
      (upsert_daily_data (some r) cp mc source error now).market_cap
        = r.market_cap)
    ∧ (upsert_daily_data
        (some { close_price := some 150, market_cap := none, source := "yahoo",
                error := none, created_at := 0, updated_at := 0 })
        (some 999) (some 2000000000) "yahoo" none 1).close_price = some 150
    ∧ (upsert_daily_data
        (some { close_price := some 150, market_cap := none, source := "yahoo",
                error := none, created_at := 0, updated_at := 0 })
        (some 999) (some 2000000000) "yahoo" none 1).market_cap
        = some 2000000000 := by
  refine ⟨?_, ?_, ?_, ?_, by decide, by decide⟩ <;>
    (obtain ⟨rc, rm, rs, re, rca, rua⟩ := r) <;>
    cases rc <;> cases rm <;> cases cp <;> cases mc <;>
    simp [upsert_daily_data]

/-- Witness for C1 at concrete inputs: an existing-null close price
adopts the incoming value, an existing non-null one is kept. -/
theorem upsert_daily_null_preserving_witness :
    (upsert_daily_data (some ⟨none, some 5, "s", none, 0, 0⟩)
        (some 7) none "alphavantage" none 2).close_price = some 7
    ∧ (upsert_daily_data (some ⟨some 3, some 5, "s", none, 0, 0⟩)
        (some 7) none "alphavantage" none 2).close_price = some 3 :=
  ⟨(upsert_daily_null_preserving ⟨none, some 5, "s", none, 0, 0⟩
      (some 7) none "alphavantage" none 2).1 rfl (by decide),
    (upsert_daily_null_preserving ⟨some 3, some 5, "s", none, 0, 0⟩
      (some 7) none "alphavantage" none 2).2.1 (Or.inl (by decide))⟩

/-- C2: `upsert_daily_data` is idempotent: when neither field is
adopted the existing record is returned untouched (source, error and
updated_at keep their previous values); when at least one field is
adopted, source and error are overwritten with the incoming values and
updated_at is set to the call time; and repeating the same call leaves
the record exactly as after the first call. -/
theorem upsert_daily_idempotent :
    (∀ (r : DailyRecord) (cp mc : Option ℚ) (source : String)
        (error : Option String) (now : Nat),
      (r.close_price ≠ none ∨ cp = none) →
      (r.market_cap ≠ none ∨ mc = none) →
      upsert_daily_data (some r) cp mc source error now = r)
    ∧ (∀ (r : DailyRecord) (cp mc : Option ℚ) (source : String)
        (error : Option String) (now : Nat),
      ((r.close_price = none ∧ cp ≠ none) ∨ (r.market_cap = none ∧ mc ≠ none)) →
      (upsert_daily_data (some r) cp mc source error now).source = source
      ∧ (upsert_daily_data (some r) cp mc source error now).error = error
      ∧ (upsert_daily_data (some r) cp mc source error now).updated_at = now)
    ∧ (∀ (existing : Option DailyRecord) (cp mc : Option ℚ) (source : String)
        (error : Option String) (t₁ t₂ : Nat),
      upsert_daily_data
          (some (upsert_daily_data existing cp mc source error t₁))
          cp mc source error t₂
        = upsert_daily_data existing cp mc source error t₁) := by
  refine ⟨?_, ?_, ?_⟩
  · intro r cp mc source error now h1 h2
    obtain ⟨rc, rm, rs, re, rca, rua⟩ := r
    cases rc <;> cases rm <;> cases cp <;> cases mc <;>
      simp_all [upsert_daily_data]
  · intro r cp mc source error now h
    obtain ⟨rc, rm, rs, re, rca, rua⟩ := r
    cases rc <;> cases rm <;> cases cp <;> cases mc <;>
      simp_all [upsert_daily_data]
  · intro existing cp mc source error t₁ t₂
    match existing with
    | none => cases cp <;> cases mc <;> simp [upsert_daily_data]
    | some r =>
      obtain ⟨rc, rm, rs, re, rca, rua⟩ := r
      cases rc <;> cases rm <;> cases cp <;> cases mc <;>
        simp [upsert_daily_data]

/-- Witness for C2 at concrete inputs: a complete record is untouched
by a redundant write; an adopting write overwrites source, error and
updated_at. -/
theorem upsert_daily_idempotent_witness :
    upsert_daily_data (some ⟨some 3, some 5, "yahoo", none, 0, 0⟩)
        (some 7) (some 9) "alphavantage" (some "w") 2
      = ⟨some 3, some 5, "yahoo", none, 0, 0⟩
    ∧ (upsert_daily_data (some ⟨none, some 5, "yahoo", none, 0, 0⟩)
        (some 7) none "alphavantage" (some "w") 2).source = "alphavantage" :=
  ⟨upsert_daily_idempotent.1 ⟨some 3, some 5, "yahoo", none, 0, 0⟩
      (some 7) (some 9) "alphavantage" (some "w") 2
      (Or.inl (by decide)) (Or.inl (by decide)),
    (upsert_daily_idempotent.2.1 ⟨none, some 5, "yahoo", none, 0, 0⟩
      (some 7) none "alphavantage" (some "w") 2
      (Or.inl ⟨rfl, by decide⟩)).1⟩

/-- C9: for an existing metadata row, every explicitly supplied
(non-null) argument of `upsert_stock_metadata` overwrites the stored
column unconditionally, unsupplied (null) arguments leave their column
unchanged, `last_updated` is set whenever any field is supplied, and
with no existing row a new record holding exactly the supplied fields
is inserted. -/
theorem upsert_metadata_last_write_wins (r : MetadataRecord)
    (name exchange : Option String) (market_cap : Option ℚ) (now : Nat) :
    (∀ v, name = some v →
      (upsert_stock_metadata (some r) name exchange market_cap now).name = some v)
    ∧ (name = none →
      (upsert_stock_metadata (some r) name exchange market_cap now).name = r.name)
    ∧ (∀ v, exchange = some v →
      (upsert_stock_metadata (some r) name exchange market_cap now).exchange
        = some v)
    ∧ (exchange = none →
      (upsert_stock_metadata (some r) name exchange market_cap now).exchange
        = r.exchange)
    ∧ (∀ v, market_cap = some v →
      (upsert_stock_metadata (some r) name exchange market_cap now).latest_market_cap
        = some v)
    ∧ (market_cap = none →
      (upsert_stock_metadata (some r) name exchange market_cap now).latest_market_cap
        = r.latest_market_cap)
    ∧ ((name ≠ none ∨ exchange ≠ none ∨ market_cap ≠ none) →
      (upsert_stock_metadata (some r) name exchange market_cap now).last_updated
        = now)
    ∧ upsert_stock_metadata none name exchange market_cap now
        = ⟨name, exchange, market_cap, now⟩ := by
  refine ⟨?_, ?_, ?_, ?_, ?_, ?_, ?_, rfl⟩ <;>
    (first
      | (intro v hv; cases name <;> cases exchange <;> cases market_cap <;>
          simp_all [upsert_stock_metadata])
      | (intro hv; cases name <;> cases exchange <;> cases market_cap <;>
          simp_all [upsert_stock_metadata]))

/-- Witness for C9 at concrete inputs: a supplied market cap overwrites
a previously non-null stored one, and an unsupplied name is kept. -/
theorem upsert_metadata_last_write_wins_witness :
    (upsert_stock_metadata (some ⟨some "Apple", none, some 5, 0⟩)
        none none (some 9) 3).latest_market_cap = some 9
    ∧ (upsert_stock_metadata (some ⟨some "Apple", none, some 5, 0⟩)
        none none (some 9) 3).name = some "Apple"
    ∧ (upsert_stock_metadata (some ⟨some "Apple", none, some 5, 0⟩)
        none none (some 9) 3).last_updated = 3 :=
  ⟨(upsert_metadata_last_write_wins ⟨some "Apple", none, some 5, 0⟩
      none none (some 9) 3).2.2.2.2.1 9 rfl,
    (upsert_metadata_last_write_wins ⟨some "Apple", none, some 5, 0⟩
      none none (some 9) 3).2.1 rfl,
    (upsert_metadata_last_write_wins ⟨some "Apple", none, some 5, 0⟩
      none none (some 9) 3).2.2.2.2.2.2.1
      (Or.inr (Or.inr (by decide)))⟩

/-- C6: `fetch_stock_data` consults the primary (Yahoo) observation
first and returns it without invoking the secondary when its close
price is non-null; otherwise the secondary (Alpha Vantage) observation
is consulted and returned when its close price is non-null; when both
are null the primary result is returned exactly when it carries a
truthy (non-null, non-empty) error message, otherwise the secondary
result is; the returned observation is always one of the two inputs
unmodified. -/
theorem fetch_stock_data_fallback (y a : Observation) :
    (y.close_price ≠ none → fetch_stock_data y a = (y, false))
    ∧ (y.close_price = none → a.close_price ≠ none →
        fetch_stock_data y a = (a, true))
    ∧ (y.close_price = none → a.close_price = none →
        errTruthy y.error = true → fetch_stock_data y a = (y, true))
    ∧ (y.close_price = none → a.close_price = none →
        errTruthy y.error = false → fetch_stock_data y a = (a, true))
    ∧ ((fetch_stock_data y a).1 = y ∨ (fetch_stock_data y a).1 = a) := by
  refine ⟨?_, ?_, ?_, ?_, ?_⟩
  · intro hy
    cases hcy : y.close_price <;> simp_all [fetch_stock_data]
  · intro hy ha
    cases hca : a.close_price <;> simp_all [fetch_stock_data]
  · intro hy ha he
    simp_all [fetch_stock_data]
  · intro hy ha he
    simp_all [fetch_stock_data]
  · unfold fetch_stock_data
    split_ifs <;> simp

/-- Witness for C6 at concrete inputs: a primary observation with a
close price short-circuits; with both closes null and a truthy primary
error the primary result is returned. -/
theorem fetch_stock_data_fallback_witness :
    fetch_stock_data
        ⟨"AAPL", "2024-12-16", some 150, none, "yahoo", none⟩
        ⟨"AAPL", "2024-12-16", some 149, none, "alphavantage", none⟩
      = (⟨"AAPL", "2024-12-16", some 150, none, "yahoo", none⟩, false)
    ∧ fetch_stock_data
        ⟨"AAPL", "2024-12-16", none, none, "yahoo", some "boom"⟩
        ⟨"AAPL", "2024-12-16", none, none, "alphavantage", some "other"⟩
      = (⟨"AAPL", "2024-12-16", none, none, "yahoo", some "boom"⟩, true) :=
  ⟨(fetch_stock_data_fallback
      ⟨"AAPL", "2024-12-16", some 150, none, "yahoo", none⟩
      ⟨"AAPL", "2024-12-16", some 149, none, "alphavantage", none⟩).1
      (by decide),
    (fetch_stock_data_fallback
      ⟨"AAPL", "2024-12-16", none, none, "yahoo", some "boom"⟩
      ⟨"AAPL", "2024-12-16", none, none, "alphavantage", some "other"⟩).2.2.1
      rfl rfl (by decide)⟩

/-- C3 counterexample: with a stored record already holding
close_price = 150 and a new fetch returning a null close price, the
stored close price after the upsert is non-null, yet line 258 of
orchestrator.py counts the pair from the fetched result and records a
failure — so "success iff the finally-stored close_price is non-null"
is false at this input. -/
theorem ingest_success_count_counterexample :
    pairSuccess (PairOutcome.fetched
        ⟨"AAPL", "2024-12-16", none, none, "yahoo", some "no data"⟩) = false
    ∧ (upsert_daily_data (some ⟨some 150, none, "yahoo", none, 0, 0⟩)
        none none "yahoo" (some "no data") 1).close_price.isSome = true
    ∧ pairSuccess (PairOutcome.fetched
        ⟨"AAPL", "2024-12-16", none, none, "yahoo", some "no data"⟩)
      ≠ (upsert_daily_data (some ⟨some 150, none, "yahoo", none, 0, 0⟩)
        none none "yahoo" (some "no data") 1).close_price.isSome := by
  decide

/-- C3 amended: a pair is counted as a success exactly when the newly
fetched observation's close price is non-null; a counted success does
imply the finally-stored close price is non-null, but a pair whose
stored close price is non-null from an earlier run is counted as a
failure when the new fetch returns null. -/
theorem ingest_success_counts_fetched (existing : Option DailyRecord)
    (obs : Observation) (now : Nat) :
    pairSuccess (PairOutcome.fetched obs) = obs.close_price.isSome
    ∧ (obs.close_price.isSome = true →
      (upsert_daily_data existing obs.close_price obs.market_cap obs.source
          obs.error now).close_price.isSome = true) := by
  refine ⟨rfl, ?_⟩
  intro h
  match existing with
  | none => simpa [upsert_daily_data] using h
  | some r =>
    obtain ⟨rc, rm, rs, re, rca, rua⟩ := r
    cases rc <;> cases hco : obs.close_price <;> cases rm <;>
      cases hmo : obs.market_cap <;> simp_all [upsert_daily_data]

/-- Witness for the amended C3 at a concrete input: a fetched non-null
close price is counted as a success and ends up stored non-null. -/
theorem ingest_success_counts_fetched_witness :
    pairSuccess (PairOutcome.fetched
        ⟨"AAPL", "2024-12-16", some 150, none, "yahoo", none⟩)
      = (some (150 : ℚ)).isSome
    ∧ (upsert_daily_data none (some 150) none "yahoo" none
        1).close_price.isSome = true :=
  ⟨(ingest_success_counts_fetched none
      ⟨"AAPL", "2024-12-16", some 150, none, "yahoo", none⟩ 1).1,
    (ingest_success_counts_fetched none
      ⟨"AAPL", "2024-12-16", some 150, none, "yahoo", none⟩ 1).2 rfl⟩

theorem range'_sleep_eq (len : Nat) (base bf : ℚ) :
    (List.range' 1 len).map (fun k => sleep_with_backoff k base bf)
      = (List.range len).map (fun k => base * bf ^ k) := by
  rw [List.range'_eq_map_range, List.map_map]
  apply List.map_congr_left
  intro k _
  show sleep_with_backoff (1 + k) base bf = base * bf ^ k
  have hk : 1 + k - 1 = k := by omega
  rw [sleep_with_backoff, hk]

/-- C5: with jitter disabled, an operation that raises on every
invocation is invoked exactly `n` times by
`retry_on_exception(max_attempts = n ≥ 1)`, the final exception is
re-raised, and exactly `n - 1` sleeps of
`base_delay * backoff_factor ^ (attempt - 1)` occur (none after the
final attempt), so for `n = 3` the total sleep is
`base_delay * (1 + backoff_factor)`; an operation that first succeeds
at attempt `m ≤ n` returns that result immediately after `m`
invocations. -/
theorem retry_backoff_contract {E A : Type} (op : Nat → Except E A)
    (err : Nat → E) (n : Nat) (base bf : ℚ) :
    ((∀ k, op k = Except.error (err k)) → 1 ≤ n →
      retry_on_exception op n base bf =
        ((List.range (n - 1)).map (fun k => base * bf ^ k), n,
          Except.error (err n)))
    ∧ ((∀ k, op k = Except.error (err k)) →
      (retry_on_exception op 3 base bf).1.sum = base * (1 + bf))
    ∧ (∀ m a, 1 ≤ m → m ≤ n → (∀ k, k < m → op k = Except.error (err k)) →
      op m = Except.ok a →
      retry_on_exception op n base bf =
        ((List.range (m - 1)).map (fun k => base * bf ^ k), m,
          Except.ok a)) := by
  refine ⟨?_, ?_, ?_⟩
  · intro hop hn
    rw [retry_on_exception, retryAux_all_fail op err hop base bf (n - 1) 1,
      range'_sleep_eq, show n - 1 + 1 = n by omega, show 1 + (n - 1) = n by omega]
  · intro hop
    rw [retry_on_exception, show (3 : Nat) - 1 = 2 from rfl,
      retryAux_all_fail op err hop base bf 2 1]
    show ((List.range' 1 2).map (fun k => sleep_with_backoff k base bf)).sum
      = base * (1 + bf)
    rw [show List.range' 1 2 = [1, 2] from rfl]
    simp [sleep_with_backoff]
    ring
  · intro m a hm1 hmn hfail hok
    have h := retryAux_succeeds op err base bf (m - 1) 1 (n - 1) a
      (fun k hk1 hk2 => hfail k (by omega))
      (by rw [show 1 + (m - 1) = m by omega]; exact hok)
      (by omega)
    rw [retry_on_exception, h, range'_sleep_eq,
      show m - 1 + 1 = m by omega]

/-- Witness for C5 at concrete inputs: an always-raising operation with
`max_attempts = 3`, `base_delay = 1`, `backoff_factor = 2` is invoked 3
times, re-raises, and sleeps twice; an operation succeeding at attempt
2 stops there. -/
theorem retry_backoff_contract_witness :
    retry_on_exception (fun _ => (Except.error "boom" : Except String Nat))
        3 1 2
      = ((List.range 2).map (fun k => (1 : ℚ) * 2 ^ k), 3,
          Except.error "boom")
    ∧ retry_on_exception
        (fun k => if k < 2 then (Except.error "boom" : Except String Nat)
          else Except.ok 42) 3 1 2
      = ((List.range 1).map (fun k => (1 : ℚ) * 2 ^ k), 2, Except.ok 42) :=
  ⟨(retry_backoff_contract (fun _ => Except.error "boom")
      (fun _ => "boom") 3 1 2).1 (fun _ => rfl) (by norm_num),
    (retry_backoff_contract
      (fun k => if k < 2 then Except.error "boom" else Except.ok 42)
      (fun _ => "boom") 3 1 2).2.2 2 42 (by norm_num) (by norm_num)
      (fun k hk => by simp [hk]) (by norm_num)⟩

/-- C8: for every run of `ingest`, successes + failures = total_dates =
(number of symbols) × (number of enumerated calendar days in the
inclusive range), the failed-pairs list has exactly `failures` entries
each of the form `"{symbol}-{date}"` for a pair that was not counted a
success (exceptions included, and no pair ever aborts the sweep), and
`success_rate = successes / total_dates * 100` (0 when
`total_dates = 0`). -/
theorem ingest_summary_invariant (symbols : List String)
    (startDay endDay : Nat) (dateName : Nat → String)
    (oracle : String → String → PairOutcome) :
    (ingest symbols startDay endDay dateName oracle).successes
        + (ingest symbols startDay endDay dateName oracle).failures
      = (ingest symbols startDay endDay dateName oracle).total_dates
    ∧ (ingest symbols startDay endDay dateName oracle).total_dates
      = symbols.length * (endDay + 1 - startDay)
    ∧ (ingest symbols startDay endDay dateName oracle).failed_pairs.length
      = (ingest symbols startDay endDay dateName oracle).failures
    ∧ (∀ x ∈ (ingest symbols startDay endDay dateName oracle).failed_pairs,
        ∃ s d, s ∈ symbols ∧ d ∈ ingestDates startDay endDay dateName ∧
          x = s ++ "-" ++ d ∧ pairSuccess (oracle s d) = false)
    ∧ (ingest symbols startDay endDay dateName oracle).success_rate
      = (if (ingest symbols startDay endDay dateName oracle).total_dates = 0
          then 0
          else ((ingest symbols startDay endDay dateName oracle).successes : ℚ)
            / ((ingest symbols startDay endDay dateName oracle).total_dates : ℚ)
            * 100) := by
  rcases ingestFold_inv oracle
    (allPairs symbols (ingestDates startDay endDay dateName)) (0, 0, [])
    with ⟨h1, h2, h3⟩
  simp only [List.length_nil] at h1 h2
  have hs : (ingest symbols startDay endDay dateName oracle).successes
      = ((allPairs symbols (ingestDates startDay endDay dateName)).foldl
        (ingestStep oracle) (0, 0, [])).1 := rfl
  have hf : (ingest symbols startDay endDay dateName oracle).failures
      = ((allPairs symbols (ingestDates startDay endDay dateName)).foldl
        (ingestStep oracle) (0, 0, [])).2.1 := rfl
  have hfp : (ingest symbols startDay endDay dateName oracle).failed_pairs
      = ((allPairs symbols (ingestDates startDay endDay dateName)).foldl
        (ingestStep oracle) (0, 0, [])).2.2 := rfl
  have ht : (ingest symbols startDay endDay dateName oracle).total_dates
      = (allPairs symbols (ingestDates startDay endDay dateName)).length := rfl
  have hr : (ingest symbols startDay endDay dateName oracle).success_rate
      = (if (allPairs symbols (ingestDates startDay endDay dateName)).length > 0
          then (((allPairs symbols (ingestDates startDay endDay dateName)).foldl
              (ingestStep oracle) (0, 0, [])).1 : ℚ)
            / ((allPairs symbols (ingestDates startDay endDay dateName)).length : ℚ)
            * 100
          else 0) := rfl
  refine ⟨?_, ?_, ?_, ?_, ?_⟩
  · rw [hs, hf, ht]
    omega
  · rw [ht, allPairs_length, ingestDates_length]
  · rw [hfp, hf]
    omega
  · intro x hx
    rw [hfp] at hx
    rcases h3 x hx with hin | ⟨p, hp, hx1, hx2⟩
    · simp at hin
    · rcases mem_allPairs.mp hp with ⟨hp1, hp2⟩
      exact ⟨p.1, p.2, hp1, hp2, hx1, hx2⟩
  · rw [hr, ht, hs]
    by_cases hl : (allPairs symbols (ingestDates startDay endDay dateName)).length = 0
    · simp [hl]
    · rw [if_pos (Nat.pos_of_ne_zero hl), if_neg hl]

/-- Witness for C8 at a concrete run: one symbol, a one-day range, an
oracle that raises; the accounting identity holds and the single failed
pair is recorded as "AAPL-2024-12-16". -/
theorem ingest_summary_invariant_witness :
    (ingest ["AAPL"] 0 0 (fun _ => "2024-12-16")
        (fun _ _ => PairOutcome.exn "boom")).successes
      + (ingest ["AAPL"] 0 0 (fun _ => "2024-12-16")
        (fun _ _ => PairOutcome.exn "boom")).failures
      = (ingest ["AAPL"] 0 0 (fun _ => "2024-12-16")
        (fun _ _ => PairOutcome.exn "boom")).total_dates
    ∧ ∃ s d, s ∈ ["AAPL"] ∧ d ∈ ingestDates 0 0 (fun _ => "2024-12-16") ∧
        "AAPL-2024-12-16" = s ++ "-" ++ d ∧
        pairSuccess ((fun _ _ => PairOutcome.exn "boom") s d) = false :=
  ⟨(ingest_summary_invariant ["AAPL"] 0 0 (fun _ => "2024-12-16")
      (fun _ _ => PairOutcome.exn "boom")).1,
    (ingest_summary_invariant ["AAPL"] 0 0 (fun _ => "2024-12-16")
      (fun _ _ => PairOutcome.exn "boom")).2.2.2.1 "AAPL-2024-12-16"
      (by decide)⟩

theorem retry_of_ok {E A : Type} (op : Nat → Except E A) (a : A)
    (h : op 1 = Except.ok a) (n : Nat) (base bf : ℚ) :
    retry_on_exception op n base bf = ([], 1, Except.ok a) := by
  rw [retry_on_exception]
  cases hn : n - 1 <;> simp [retryAux, h]

theorem yahooFetch_ok (symbol date : String) (b : YahooBehavior) :
    ∃ obs, yahooFetch symbol date b = Except.ok obs
      ∧ (obs.close_price = none → obs.error.isSome = true) := by
  obtain ⟨hist, info⟩ := b
  cases hist with
  | error e => exact ⟨_, rfl, by intro h; simp⟩
  | ok rows =>
    cases rows with
    | nil => exact ⟨_, rfl, by intro h; simp⟩
    | cons c rest => exact ⟨_, rfl, by intro h; simp at h⟩

theorem alphaFetch_ok (symbol date : String) (b : AVBehavior) :
    ∃ obs, alphaFetch symbol date b = Except.ok obs
      ∧ (obs.close_price = none → obs.error.isSome = true) := by
  obtain ⟨req⟩ := b
  cases req with
  | error exc =>
    cases exc with
    | requestException m => exact ⟨_, rfl, by intro h; simp⟩
    | otherException m => exact ⟨_, rfl, by intro h; simp⟩
  | ok data =>
    obtain ⟨em, nt, ts⟩ := data
    cases em with
    | some m => exact ⟨_, rfl, by intro h; simp⟩
    | none =>
      cases nt with
      | some m => exact ⟨_, rfl, by intro h; simp⟩
      | none =>
        cases ts with
        | none => exact ⟨_, rfl, by intro h; simp⟩
        | some l =>
          by_cases hl : l = []
          · subst hl
            exact ⟨_, rfl, by intro h; simp⟩
          · cases hsel : avSelectDate l date with
            | none =>
              refine
                ⟨{ symbol := symbol, date := date, close_price := none,
                   market_cap := none, source := "alphavantage",
                   error := some ("No data available for " ++ symbol ++
                     " on or before " ++ date) }, ?_, by intro h; simp⟩
              simp [alphaFetch, alphaFetchBody, hl, hsel]
            | some sel =>
              obtain ⟨d, c, w⟩ := sel
              refine
                ⟨{ symbol := symbol, date := d, close_price := some c,
                   market_cap := none, source := "alphavantage",
                   error := w }, ?_, by intro h; simp at h⟩
              simp [alphaFetch, alphaFetchBody, hl, hsel]

/-- C10: whatever the provider interaction does — including raising
transport exceptions — the public `fetch` of each adapter returns an
observation (with a null close price implying a non-null error
message) and never lets an exception escape, so the surrounding retry
wrapper performs a single invocation, sleeps zero times and never
re-raises. -/
theorem adapters_never_raise (symbol date : String) (b : YahooBehavior)
    (b' : AVBehavior) (n : Nat) (base bf : ℚ) :
    (∃ obs, yahooFetch symbol date b = Except.ok obs
      ∧ (obs.close_price = none → obs.error.isSome = true)
      ∧ retry_on_exception (fun _ => yahooFetch symbol date b) n base bf
          = ([], 1, Except.ok obs))
    ∧ (∃ obs, alphaFetch symbol date b' = Except.ok obs
      ∧ (obs.close_price = none → obs.error.isSome = true)
      ∧ retry_on_exception (fun _ => alphaFetch symbol date b') n base bf
          = ([], 1, Except.ok obs)) := by
  constructor
  · rcases yahooFetch_ok symbol date b with ⟨obs, hok, herr⟩
    exact ⟨obs, hok, herr, retry_of_ok _ obs hok n base bf⟩
  · rcases alphaFetch_ok symbol date b' with ⟨obs, hok, herr⟩
    exact ⟨obs, hok, herr, retry_of_ok _ obs hok n base bf⟩

/-- Witness for C10 at a concrete input: a Yahoo provider raising a
transport exception still yields a returned observation and a
single-invocation retry run. -/
theorem adapters_never_raise_witness :
    yahooFetch "AAPL" "2024-12-16" ⟨Except.error "boom", Except.error "x"⟩
      = Except.ok ⟨"AAPL", "2024-12-16", none, none, "yahoo", some "boom"⟩
    ∧ retry_on_exception
        (fun _ => yahooFetch "AAPL" "2024-12-16"
          ⟨Except.error "boom", Except.error "x"⟩) 3 1 2
      = ([], 1, Except.ok
          ⟨"AAPL", "2024-12-16", none, none, "yahoo", some "boom"⟩) := by
  rcases (adapters_never_raise "AAPL" "2024-12-16"
      ⟨Except.error "boom", Except.error "x"⟩
      ⟨Except.error (PyExc.requestException "z")⟩ 3 1 2).1
    with ⟨obs, h1, h2, h3⟩
  have hval : yahooFetch "AAPL" "2024-12-16"
      ⟨Except.error "boom", Except.error "x"⟩
      = Except.ok ⟨"AAPL", "2024-12-16", none, none, "yahoo", some "boom"⟩ := rfl
  have hobs : obs = ⟨"AAPL", "2024-12-16", none, none, "yahoo", some "boom"⟩ :=
    Except.ok.inj (h1.symm.trans hval)
  subst hobs
  exact ⟨h1, h3⟩

/-- C4 counterexample: a Yahoo provider call that raises a transport
exception on every attempt does not make `fetch` raise: the wrapped
call returns a failed observation after exactly one invocation with no
sleeps, so no exception reaches the retry loop's re-raise branch and
nothing propagates to the fetch coordinator — contradicting the
claimed three invocations ending in a propagated exception. -/
theorem yahoo_transport_exception_counterexample :
    retry_on_exception
        (fun _ => yahooFetch "AAPL" "2024-12-16"
          ⟨Except.error "ConnectionError: network unreachable",
            Except.error "ConnectionError"⟩) 3 1 2
      = ([], 1, Except.ok
          ⟨"AAPL", "2024-12-16", none, none, "yahoo",
            some "ConnectionError: network unreachable"⟩)
    ∧ (retry_on_exception
        (fun _ => yahooFetch "AAPL" "2024-12-16"
          ⟨Except.error "ConnectionError: network unreachable",
            Except.error "ConnectionError"⟩) 3 1 2).2.1 ≠ 3
    ∧ (retry_on_exception
        (fun _ => yahooFetch "AAPL" "2024-12-16"
          ⟨Except.error "ConnectionError: network unreachable",
            Except.error "ConnectionError"⟩) 3 1 2).2.2
      ≠ Except.error "ConnectionError: network unreachable" := by
  refine ⟨rfl, by decide, by decide⟩

/-- C4 amended: a provider-level transport exception raised inside an
adapter call is caught inside `fetch` itself and converted into a
returned failed observation (null close price, non-null error text);
the retry wrapper therefore sees a normal return, performs exactly one
invocation with no sleeps and never re-raises, and the fetch
coordinator receives the failed observation instead of an exception. -/
theorem adapter_exception_conversion (symbol date : String)
    (e einfo msg : String) (n : Nat) (base bf : ℚ) :
    (yahooFetch symbol date ⟨Except.error e, Except.error einfo⟩
        = Except.ok ⟨symbol, date, none, none, "yahoo", some e⟩
      ∧ retry_on_exception
          (fun _ => yahooFetch symbol date ⟨Except.error e, Except.error einfo⟩)
          n base bf
        = ([], 1, Except.ok ⟨symbol, date, none, none, "yahoo", some e⟩))
    ∧ (alphaFetch symbol date ⟨Except.error (PyExc.requestException msg)⟩
        = Except.ok ⟨symbol, date, none, none, "alphavantage",
            some ("Network error: " ++ msg)⟩
      ∧ retry_on_exception
          (fun _ => alphaFetch symbol date
            ⟨Except.error (PyExc.requestException msg)⟩) n base bf
        = ([], 1, Except.ok ⟨symbol, date, none, none, "alphavantage",
            some ("Network error: " ++ msg)⟩)) :=
  ⟨⟨rfl, retry_of_ok
      (fun _ => yahooFetch symbol date ⟨Except.error e, Except.error einfo⟩)
      ⟨symbol, date, none, none, "yahoo", some e⟩ rfl n base bf⟩,
    ⟨rfl, retry_of_ok
      (fun _ => alphaFetch symbol date
        ⟨Except.error (PyExc.requestException msg)⟩)
      ⟨symbol, date, none, none, "alphavantage",
        some ("Network error: " ++ msg)⟩ rfl n base bf⟩⟩

/-- C7: for a Secondary (Alpha Vantage) fetch over a non-empty time
series, an exactly matching requested date is served with a null
error; an absent requested date falls back to the greatest available
date at or before it (the first hit scanning the descending-sorted
dates), returned in the observation's date field with that date's
close and a non-null advisory message; and when no date at or before
the requested one exists the observation carries a null close price
and an explanatory error.  In particular a series holding 2024-12-15
and 2024-12-14 fetched for 2024-12-16 yields date 2024-12-15, a
populated close price and a non-null error. -/
theorem av_closest_date_fallback (symbol reqDate : String)
    (ts : List (String × ℚ)) (hne : ts ≠ []) :
    (∀ c, ts.lookup reqDate = some c →
      alphaFetch symbol reqDate (avOk ts)
        = Except.ok ⟨symbol, reqDate, some c, none, "alphavantage", none⟩)
    ∧ (ts.lookup reqDate = none →
      (∃ d, d ∈ ts.map Prod.fst ∧ pyLe d reqDate = true) →
      ∃ d₀ c, alphaFetch symbol reqDate (avOk ts)
          = Except.ok ⟨symbol, d₀, some c, none, "alphavantage",
              some ("Exact date " ++ reqDate ++ " not available, using " ++ d₀)⟩
        ∧ d₀ ∈ ts.map Prod.fst ∧ pyLe d₀ reqDate = true
        ∧ (∀ d ∈ ts.map Prod.fst, pyLe d reqDate = true → pyLe d d₀ = true)
        ∧ ts.lookup d₀ = some c)
    ∧ (ts.lookup reqDate = none →
      (∀ d ∈ ts.map Prod.fst, pyLe d reqDate = false) →
      alphaFetch symbol reqDate (avOk ts)
        = Except.ok ⟨symbol, reqDate, none, none, "alphavantage",
            some ("No data available for " ++ symbol ++ " on or before " ++
              reqDate)⟩)
    ∧ alphaFetch "AAPL" "2024-12-16"
        (avOk [("2024-12-15", 149), ("2024-12-14", 148)])
      = Except.ok ⟨"AAPL", "2024-12-15", some 149, none, "alphavantage",
          some "Exact date 2024-12-16 not available, using 2024-12-15"⟩ := by
  refine ⟨?_, ?_, ?_, by decide⟩
  · intro c hc
    simp [alphaFetch, alphaFetchBody, avOk, avSelectDate, hne, hc]
  · intro hnone hex
    rcases hex with ⟨d, hd, hdle⟩
    cases hfind : (sortDesc (ts.map Prod.fst)).find? (fun x => pyLe x reqDate) with
    | none =>
      exfalso
      have := List.find?_eq_none.mp hfind d (mem_sortDesc.mpr hd)
      simp [hdle] at this
    | some d₀ =>
      have hd₀sort : d₀ ∈ sortDesc (ts.map Prod.fst) :=
        List.mem_of_find?_eq_some hfind
      have hd₀mem : d₀ ∈ ts.map Prod.fst := mem_sortDesc.mp hd₀sort
      have hd₀le : pyLe d₀ reqDate = true :=
        @List.find?_some String (fun x => pyLe x reqDate) d₀
          (sortDesc (ts.map Prod.fst)) hfind
      have hmax : ∀ x ∈ ts.map Prod.fst, pyLe x reqDate = true →
          pyLe x d₀ = true := by
        intro x hx hxle
        exact find?_sortedDesc_greatest (sortedDesc_sortDesc _) hfind x
          (mem_sortDesc.mpr hx) hxle
      rcases lookup_of_mem_keys hd₀mem with ⟨c, hc⟩
      have hsel : avSelectDate ts reqDate
          = some (d₀, c,
              some ("Exact date " ++ reqDate ++ " not available, using " ++ d₀)) := by
        simp [avSelectDate, hnone, hfind, hc]
      refine ⟨d₀, c, ?_, hd₀mem, hd₀le, hmax, hc⟩
      simp [alphaFetch, alphaFetchBody, avOk, hne, hsel]
  · intro hnone hall
    have hfind : (sortDesc (ts.map Prod.fst)).find? (fun x => pyLe x reqDate)
        = none := by
      apply List.find?_eq_none.mpr
      intro x hx
      simp [hall x (mem_sortDesc.mp hx)]
    have hsel : avSelectDate ts reqDate = none := by
      simp [avSelectDate, hnone, hfind]
    simp [alphaFetch, alphaFetchBody, avOk, hne, hsel]

/-- Witness for C7 at concrete inputs: an exact date is served with a
null error, and a request earlier than every available date yields a
null close price with an explanatory error. -/
theorem av_closest_date_fallback_witness :
    alphaFetch "AAPL" "2024-12-15"
        (avOk [("2024-12-15", 149), ("2024-12-14", 148)])
      = Except.ok ⟨"AAPL", "2024-12-15", some 149, none, "alphavantage", none⟩
    ∧ alphaFetch "AAPL" "2024-12-13"
        (avOk [("2024-12-15", 149), ("2024-12-14", 148)])
      = Except.ok ⟨"AAPL", "2024-12-13", none, none, "alphavantage",
          some "No data available for AAPL on or before 2024-12-13"⟩ :=
  ⟨(av_closest_date_fallback "AAPL" "2024-12-15"
      [("2024-12-15", 149), ("2024-12-14", 148)] (by decide)).1 149 (by decide),
    (av_closest_date_fallback "AAPL" "2024-12-13"
      [("2024-12-15", 149), ("2024-12-14", 148)] (by decide)).2.2.1
      (by decide) (by decide)⟩
